import Mathlib

/-!
Shallow embedding of the swap/trailer bookkeeping core of the mcuboot
bootloader (source file bootutil_misc.c) together with the flash-map and
header constants it consumes.  All operational definitions follow the C
source; helpers whose implementation lives outside the provided sources
(flash-map backend, trailer field offsets, the magic codec, the
fault-injection-hardening sentinels) are modelled from the specification
and carry a doc comment saying so.
-/

/-- Compile-time configuration: the feature flags and alignment constants
fixed by the integrator.  Fields correspond to MCUBOOT_ENC_IMAGES,
MCUBOOT_SWAP_SAVE_ENCTLV, MCUBOOT_SWAP_USING_SCRATCH, BOOT_MAX_ALIGN,
BOOT_MAGIC_ALIGN_SIZE, BOOT_ENC_KEY_ALIGN_SIZE, BOOT_ENC_TLV_ALIGN_SIZE,
BOOT_STATUS_MAX_ENTRIES, BOOT_STATUS_STATE_COUNT and the flash-map id
FLASH_AREA_IMAGE_SCRATCH. -/
structure Config where
  encImages : Bool
  swapSaveEnctlv : Bool
  swapUsingScratch : Bool
  maxAlign : Nat
  magicAlignSize : Nat
  encKeyAlignSize : Nat
  encTlvAlignSize : Nat
  statusMaxEntries : Nat
  statusStateCount : Nat
  scratchAreaId : Nat

/-- Modelled from the spec: a flash area handle (spec 4.A).  It carries an
id, a total size, the write-unit alignment and an ordered sector table of
pairs (offset, size). -/
structure FlashArea where
  id : Nat
  size : Nat
  align : Nat
  sectors : List (Nat × Nat)

/-- Source boot_trailer_info_sz: space for the swap_type, copy_done,
image_ok and swap_size fields, the magic, and (when encryption is on) the
two per-slot key slots. -/
def boot_trailer_info_sz (cfg : Config) : Nat :=
  (if cfg.encImages then
    (if cfg.swapSaveEnctlv then cfg.encTlvAlignSize * 2 else cfg.encKeyAlignSize * 2)
   else 0)
  + cfg.maxAlign * 4 + cfg.magicAlignSize

/-- Source boot_status_entry_sz. -/
def boot_status_entry_sz (cfg : Config) (min_write_sz : Nat) : Nat :=
  cfg.statusStateCount * min_write_sz

/-- Source boot_status_sz. -/
def boot_status_sz (cfg : Config) (min_write_sz : Nat) : Nat :=
  cfg.statusMaxEntries * boot_status_entry_sz cfg min_write_sz

/-- Source boot_trailer_sz. -/
def boot_trailer_sz (cfg : Config) (min_write_sz : Nat) : Nat :=
  boot_status_sz cfg min_write_sz + boot_trailer_info_sz cfg

/-- Source boot_scratch_trailer_sz: the scratch area only stores status
for one swap operation. -/
def boot_scratch_trailer_sz (cfg : Config) (min_write_sz : Nat) : Nat :=
  boot_status_entry_sz cfg min_write_sz + boot_trailer_info_sz cfg

/-- Source boot_status_off: distance of the status area from the start of
the flash area, using the scratch trailer size for the scratch area when
the scratch strategy is compiled in. -/
def boot_status_off (cfg : Config) (fap : FlashArea) : Nat :=
  let elem_sz := fap.align
  let off_from_end :=
    if cfg.swapUsingScratch ∧ fap.id = cfg.scratchAreaId then
      boot_scratch_trailer_sz cfg elem_sz
    else
      boot_trailer_sz cfg elem_sz
  fap.size - off_from_end

/-- Modelled from the spec: boot_swap_size_off (spec 4.B), the field
offsets of the trailer: magic_off = size - MAGIC_ALIGN and
swap_size_off = magic_off - MAX_ALIGN.  The implementation lives in a
header outside the provided sources. -/
def boot_swap_size_off (cfg : Config) (fap : FlashArea) : Nat :=
  fap.size - cfg.magicAlignSize - cfg.maxAlign

/-- Modelled from the spec: boot_swap_info_off (spec 4.B), the offset of
the swap-info (swap type) field, four MAX_ALIGN units below the magic.
The implementation lives in a header outside the provided sources. -/
def boot_swap_info_off (cfg : Config) (fap : FlashArea) : Nat :=
  fap.size - cfg.magicAlignSize - cfg.maxAlign * 4

/-- Modelled from the spec: the fixed 16-byte trailer magic pattern
(spec 4.C and 6); the byte values are those of the little-endian encoding
of the boot_img_magic words.  The constant lives outside the provided
sources. -/
def bootImgMagic : List Nat :=
  [0x77, 0xc2, 0x95, 0xf3, 0x60, 0xd2, 0xef, 0x7f,
   0x35, 0x52, 0x50, 0x0f, 0x2c, 0xb6, 0x79, 0x80]

/-- Classification of a trailer magic value (spec 4.C). -/
inductive MagicVal
  | good
  | unset
  | bad
deriving DecidableEq

/-- Modelled from the spec: boot_magic_decode (spec 4.C).  GOOD when the
bytes match the pattern exactly, UNSET when every byte is the erased
value 0xff, BAD otherwise.  The implementation lives outside the provided
sources. -/
def boot_magic_decode (magic : List Nat) : MagicVal :=
  if magic = bootImgMagic then MagicVal.good
  else if magic.all (fun b => b = 0xff) then MagicVal.unset
  else MagicVal.bad

/-- Modelled from the spec: the fault-injection-hardening success
sentinel FIH_SUCCESS, a multi-bit value rather than a bare zero (spec 7).
The constant lives in fault_injection_hardening.h outside the provided
sources. -/
def FIH_SUCCESS : Int := 0x1AAAAAAA

/-- Modelled from the spec: the fault-injection-hardening failure
sentinel FIH_FAILURE, distinct from FIH_SUCCESS in more than one bit.
The constant lives in fault_injection_hardening.h outside the provided
sources. -/
def FIH_FAILURE : Int := 0x15555555

/-- Index at which the comparison loop of boot_fih_memequal stops: the
first index in [i, i + fuel) where the buffers differ, or i + fuel when
no such index exists.  Buffers are modelled as byte functions. -/
def firstDiff (s1 s2 : Nat → Nat) : Nat → Nat → Nat
  | 0, i => i
  | fuel + 1, i => if s1 i ≠ s2 i then i else firstDiff s1 s2 fuel (i + 1)

/-- Source boot_fih_memequal (fault-hardened profile): compare n bytes;
the loop exits at the first mismatch leaving ret = FIH_FAILURE, and only
when the loop counter reached n is ret set to FIH_SUCCESS. -/
def boot_fih_memequal (s1 s2 : Nat → Nat) (n : Nat) : Int :=
  if firstDiff s1 s2 n 0 = n then FIH_SUCCESS else FIH_FAILURE

/-- Number of executions of the comparison loop body of
boot_fih_memequal: the loop body runs once for every index up to and
including the first mismatch, and n times when the buffers are equal. -/
def boot_fih_memequal_iters (s1 s2 : Nat → Nat) (n : Nat) : Nat :=
  let stop := firstDiff s1 s2 n 0
  if stop = n then n else stop + 1

/-- Flash environment as seen by boot_find_status: for every area id, the
return code of flash_area_open, the return code of flash_area_read at
the magic offset, and the magic bytes that a successful read yields. -/
structure FlashState where
  openRc : Nat → Int
  readRc : Nat → Int
  magicBytes : Nat → List Nat

/-- Observable outcome of boot_find_status: the returned code, the last
value stored through the caller's out-pointer (none when the pointer was
never written), the flash handles still open on return, and the list of
area ids on which an open was attempted. -/
structure FSResult where
  rc : Int
  fapOut : Option Nat
  openA : List Nat
  probed : List Nat

/-- Source loop of boot_find_status: for each area id in order, open it
(break on failure), read the magic (close and break on failure), return
the open handle when the magic decodes as GOOD, otherwise close and try
the next area.  Falling out of the loop returns -1; the final assignment
fap = NULL in the source targets the local parameter, so the caller's
pointer keeps its last value. -/
def boot_find_status_loop (st : FlashState) (fap : Option Nat) : List Nat → FSResult
  | [] => ⟨-1, fap, [], []⟩
  | a :: rest =>
    if st.openRc a ≠ 0 then ⟨-1, fap, [], [a]⟩
    else if st.readRc a ≠ 0 then ⟨-1, some a, [], [a]⟩
    else if boot_magic_decode (st.magicBytes a) = MagicVal.good then ⟨0, some a, [a], [a]⟩
    else
      let r := boot_find_status_loop st (some a) rest
      ⟨r.rc, r.fapOut, r.openA, a :: r.probed⟩

/-- Source boot_find_status with MCUBOOT_SWAP_USING_SCRATCH enabled: the
probed area list is the scratch area followed by the primary slot of the
image.  The parameter fap0 is the caller's out-pointer content on entry. -/
def boot_find_status (st : FlashState) (scratchId primaryId : Nat) (fap0 : Option Nat) : FSResult :=
  boot_find_status_loop st fap0 [scratchId, primaryId]

/-- Index at which the erased-value scan of boot_read_enc_key stops: the
first index whose byte is not 0xff, or the length of the buffer when all
bytes are erased. -/
def firstNonErasedIdx : List Nat → Nat
  | [] => 0
  | b :: rest => if b ≠ 0xff then 0 else firstNonErasedIdx rest + 1

/-- Observable outcome of boot_read_enc_key: the returned code and
whether the external key-unwrap routine boot_decrypt_key was invoked. -/
structure EncReadResult where
  rc : Int
  decryptInvoked : Bool

/-- Source boot_read_enc_key in TLV storage mode
(MCUBOOT_SWAP_SAVE_ENCTLV): read the TLV bytes (readRc is the flash
return code, tlv the BOOT_ENC_TLV_ALIGN_SIZE bytes read); on a
successful read, scan for a non-erased byte and only invoke
boot_decrypt_key (whose return code is decryptRc) when one exists. -/
def boot_read_enc_key (readRc : Int) (tlv : List Nat) (decryptRc : Int) : EncReadResult :=
  if readRc = 0 then
    if firstNonErasedIdx tlv ≠ tlv.length then ⟨decryptRc, true⟩
    else ⟨0, false⟩
  else ⟨readRc, false⟩

/-- Byte memory of one flash area, addressed from the area start. -/
def flashWrite (m : Nat → Nat) (off : Nat) (bytes : List Nat) : Nat → Nat :=
  fun a => if off ≤ a ∧ a < off + bytes.length then bytes.getD (a - off) 0 else m a

/-- Read len bytes starting at off. -/
def flashRead (m : Nat → Nat) (off len : Nat) : List Nat :=
  (List.range len).map (fun i => m (off + i))

/-- Round x up to a multiple of a. -/
def alignUp (x a : Nat) : Nat := (x + a - 1) / a * a

/-- Little-endian encoding of a 32-bit value as four bytes. -/
def le32encode (v : Nat) : List Nat :=
  [v % 256, v / 256 % 256, v / 65536 % 256, v / 16777216 % 256]

/-- Little-endian decoding of four bytes. -/
def le32decode (bs : List Nat) : Nat :=
  bs.getD 0 0 + 256 * bs.getD 1 0 + 65536 * bs.getD 2 0 + 16777216 * bs.getD 3 0

/-- Modelled from the spec: boot_write_trailer (spec 4.D), which pads the
field bytes up to the write alignment with the erased value and writes
the aligned buffer at the field offset.  The implementation lives outside
the provided sources. -/
def boot_write_trailer (fap : FlashArea) (m : Nat → Nat) (off : Nat) (bytes : List Nat) : Nat → Nat :=
  flashWrite m off (bytes ++ List.replicate (alignUp bytes.length fap.align - bytes.length) 0xff)

/-- Source boot_write_swap_size: write the four little-endian bytes of
the swap size through boot_write_trailer at boot_swap_size_off. -/
def boot_write_swap_size (cfg : Config) (fap : FlashArea) (m : Nat → Nat) (v : Nat) : Nat → Nat :=
  boot_write_trailer fap m (boot_swap_size_off cfg fap) (le32encode v)

/-- Source boot_read_swap_size: read four bytes at boot_swap_size_off. -/
def boot_read_swap_size (cfg : Config) (fap : FlashArea) (m : Nat → Nat) : Nat :=
  le32decode (flashRead m (boot_swap_size_off cfg fap) 4)

/-- Slot index of the primary slot. -/
def BOOT_PRIMARY_SLOT : Nat := 0

/-- Slot index of the secondary slot. -/
def BOOT_SECONDARY_SLOT : Nat := 1

/-- Bootloader state as used by bootutil_max_image_size: the runtime
write size BOOT_WRITE_SZ(state) and, for each slot, the number of
sectors and the offset and size of each sector. -/
structure BootLoaderState where
  writeSz : Nat
  numSectors : Nat → Nat
  sectorOff : Nat → Nat → Nat
  sectorSize : Nat → Nat → Nat

/-- Accessor boot_img_num_sectors. -/
def boot_img_num_sectors (st : BootLoaderState) (slot : Nat) : Nat := st.numSectors slot

/-- Accessor boot_img_sector_off. -/
def boot_img_sector_off (st : BootLoaderState) (slot idx : Nat) : Nat := st.sectorOff slot idx

/-- Accessor boot_img_sector_size. -/
def boot_img_sector_size (st : BootLoaderState) (slot idx : Nat) : Nat := st.sectorSize slot idx

/-- Source while loop of boot_get_first_trailer_sector: walk from the
given sector toward lower indices, accumulating sector sizes, until the
accumulated size reaches the trailer size.  The C loop would underflow
past index 0 on an ill-formed slot; the model stops at 0 there. -/
def first_trailer_sector_loop (st : BootLoaderState) (slot tsz : Nat) : Nat → Nat → Nat
  | 0, _ => 0
  | sector + 1, acc =>
    if acc < tsz then
      first_trailer_sector_loop st slot tsz sector
        (acc + boot_img_sector_size st slot sector)
    else sector + 1

/-- Source boot_get_first_trailer_sector: index of the first (lowest)
sector of the slot that holds trailer data. -/
def boot_get_first_trailer_sector (st : BootLoaderState) (slot tsz : Nat) : Nat :=
  let first := boot_img_num_sectors st slot - 1
  first_trailer_sector_loop st slot tsz first (boot_img_sector_size st slot first)

/-- Source get_first_trailer_sector_end_off: offset of the end of the
first sector of the slot holding trailer data. -/
def get_first_trailer_sector_end_off (st : BootLoaderState) (slot tsz : Nat) : Nat :=
  let s := boot_get_first_trailer_sector st slot tsz
  boot_img_sector_off st slot s + boot_img_sector_size st slot s

/-- Source scratch arm of bootutil_max_image_size: subtract from the
trailer offset the padding needed so the scratch trailer fits in the
first trailer sector of either slot. -/
def max_image_size_scratch (cfg : Config) (st : BootLoaderState) (fap : FlashArea) : Nat :=
  let slot_trailer_sz := boot_trailer_sz cfg st.writeSz
  let slot_trailer_off := fap.size - slot_trailer_sz
  let trailer_sector_primary_end_off :=
    get_first_trailer_sector_end_off st BOOT_PRIMARY_SLOT slot_trailer_sz
  let trailer_sector_secondary_end_off :=
    get_first_trailer_sector_end_off st BOOT_SECONDARY_SLOT slot_trailer_sz
  let trailer_sz_in_first_sector :=
    if trailer_sector_primary_end_off > trailer_sector_secondary_end_off then
      trailer_sector_primary_end_off - slot_trailer_off
    else
      trailer_sector_secondary_end_off - slot_trailer_off
  let scratch_trailer_sz := boot_scratch_trailer_sz cfg st.writeSz
  let trailer_padding :=
    if scratch_trailer_sz > trailer_sz_in_first_sector then
      scratch_trailer_sz - trailer_sz_in_first_sector
    else 0
  slot_trailer_off - trailer_padding

/-- Search of a sector table for the sector containing an offset. -/
def sectorFind (l : List (Nat × Nat)) (off : Nat) : Option (Nat × Nat) :=
  l.find? (fun s => decide (s.1 ≤ off ∧ off < s.1 + s.2))

/-- Modelled from the spec: flash_area_get_sector (spec 4.A,
sector_containing): the sector of the area whose byte range contains the
given offset, none when no sector does.  The implementation lives in the
flash-map backend outside the provided sources. -/
def flash_area_get_sector (fap : FlashArea) (off : Nat) : Option (Nat × Nat) :=
  sectorFind fap.sectors off

/-- Compile-time upgrade strategy selecting the arm of
bootutil_max_image_size. -/
inductive Strategy
  | singleApplicationSlot
  | firmwareLoader
  | swapUsingScratch
  | swapUsingMove
  | overwriteOnly
  | directXip
  | ramLoad

/-- Source bootutil_max_image_size: strategy dispatch.  Single-slot and
firmware-loader builds return boot_status_off; the scratch strategy
returns the padded trailer offset; the move strategy returns the offset
of the sector containing boot_status_off, or 0 when that sector cannot
be obtained; overwrite, direct-xip and ram-load builds return
boot_swap_info_off. -/
def bootutil_max_image_size (cfg : Config) (strat : Strategy) (st : BootLoaderState)
    (fap : FlashArea) : Nat :=
  match strat with
  | Strategy.singleApplicationSlot => boot_status_off cfg fap
  | Strategy.firmwareLoader => boot_status_off cfg fap
  | Strategy.swapUsingScratch => max_image_size_scratch cfg st fap
  | Strategy.swapUsingMove =>
    match flash_area_get_sector fap (boot_status_off cfg fap) with
    | none => 0
    | some sector => sector.1
  | Strategy.overwriteOnly => boot_swap_info_off cfg fap
  | Strategy.directXip => boot_swap_info_off cfg fap
  | Strategy.ramLoad => boot_swap_info_off cfg fap

/-- Total size of a sector table. -/
def sumSizes (l : List (Nat × Nat)) : Nat := l.foldr (fun s acc => s.2 + acc) 0

/-- Whether a sector table is contiguous starting at the given base:
each sector starts where the previous one ended and has positive size. -/
def contiguousB : Nat → List (Nat × Nat) → Bool
  | _, [] => true
  | base, s :: rest => decide (s.1 = base) && decide (0 < s.2) && contiguousB (s.1 + s.2) rest

/-- Replace the write alignment of a flash area, keeping id, size and
sector table. -/
def setAlign (fap : FlashArea) (w : Nat) : FlashArea :=
  { fap with align := w }

/-- Replace the runtime write size of a bootloader state, keeping the
sector tables. -/
def setWriteSz (st : BootLoaderState) (w : Nat) : BootLoaderState :=
  { st with writeSz := w }

/-- Flash environment for the claim C1 witness: every open and read
succeeds and only area 3 carries the GOOD magic. -/
def stC1 : FlashState :=
  { openRc := fun _ => 0, readRc := fun _ => 0,
    magicBytes := fun a => if a = 3 then bootImgMagic else [] }

/-- Flash environment for the claim C10 witness: opening area 3 fails
with driver code 5 while every other area would open and read fine and
even carries the GOOD magic. -/
def stC10 : FlashState :=
  { openRc := fun a => if a = 3 then 5 else 0, readRc := fun _ => 0,
    magicBytes := fun _ => bootImgMagic }

/-- Configuration of scenario S1: 8-byte max alignment, no encryption,
no scratch, 128 status entries of 3 states. -/
def cfgS1 : Config :=
  { encImages := false, swapSaveEnctlv := false, swapUsingScratch := false,
    maxAlign := 8, magicAlignSize := 16, encKeyAlignSize := 16,
    encTlvAlignSize := 48, statusMaxEntries := 128, statusStateCount := 3,
    scratchAreaId := 3 }

/-- Flash area of scenario S1: a non-scratch slot of size 0x20000 with
write alignment 8. -/
def fapS1 : FlashArea :=
  { id := 1, size := 0x20000, align := 8, sectors := [] }

/-- Upper bound on the stopping index of the comparison loop. -/
theorem firstDiff_le (s1 s2 : Nat → Nat) : ∀ fuel i, firstDiff s1 s2 fuel i ≤ i + fuel := by
  intro fuel
  induction fuel with
  | zero => intro i; simp [firstDiff]
  | succ k ih =>
    intro i
    simp only [firstDiff]
    split
    · omega
    · have h := ih (i + 1)
      omega

/-- When every byte in the scanned window agrees, the loop runs to the
end of the window. -/
theorem firstDiff_eq_of_all (s1 s2 : Nat → Nat) :
    ∀ fuel i, (∀ j, i ≤ j → j < i + fuel → s1 j = s2 j) →
      firstDiff s1 s2 fuel i = i + fuel := by
  intro fuel
  induction fuel with
  | zero => intro i _; simp [firstDiff]
  | succ k ih =>
    intro i h
    simp only [firstDiff]
    rw [if_neg]
    · have h2 := ih (i + 1) (fun j h1 h2 => h j (by omega) (by omega))
      omega
    · simp only [ne_eq, not_not]
      exact h i (Nat.le_refl i) (by omega)

/-- When some byte in the scanned window differs, the loop stops before
the end of the window. -/
theorem firstDiff_lt_of_exists (s1 s2 : Nat → Nat) :
    ∀ fuel i j, i ≤ j → j < i + fuel → s1 j ≠ s2 j →
      firstDiff s1 s2 fuel i < i + fuel := by
  intro fuel
  induction fuel with
  | zero => intro i j h1 h2 _; omega
  | succ k ih =>
    intro i j h1 h2 hne
    simp only [firstDiff]
    split
    · omega
    · rename_i heq
      simp only [ne_eq, not_not] at heq
      have hj : i + 1 ≤ j := by
        rcases Nat.eq_or_lt_of_le h1 with h | h
        · exact absurd heq (h ▸ hne)
        · omega
      have h3 := ih (i + 1) j hj (by omega) hne
      omega

/-- The loop stops exactly at the first mismatching index. -/
theorem firstDiff_first_mismatch (s1 s2 : Nat → Nat) :
    ∀ fuel i i0, i ≤ i0 → i0 < i + fuel → s1 i0 ≠ s2 i0 →
      (∀ j, i ≤ j → j < i0 → s1 j = s2 j) → firstDiff s1 s2 fuel i = i0 := by
  intro fuel
  induction fuel with
  | zero => intro i i0 h1 h2 _ _; omega
  | succ k ih =>
    intro i i0 h1 h2 hne hall
    simp only [firstDiff]
    split
    · rename_i hd
      rcases Nat.eq_or_lt_of_le h1 with h | h
      · exact h
      · exact absurd (hall i (Nat.le_refl i) h) hd
    · rename_i heq
      simp only [ne_eq, not_not] at heq
      have hj : i + 1 ≤ i0 := by
        rcases Nat.eq_or_lt_of_le h1 with h | h
        · exact absurd heq (h ▸ hne)
        · omega
      exact ih (i + 1) i0 hj (by omega) hne (fun j ha hb => hall j (by omega) hb)

/-- Claim C2: boot_fih_memequal returns the FIH_SUCCESS sentinel exactly
when the first n bytes of the two buffers are equal, and whenever some
byte among the first n differs it returns FIH_FAILURE, which is not the
success sentinel. -/
theorem boot_fih_memequal_eq_iff (s1 s2 : Nat → Nat) (n : Nat) :
    (boot_fih_memequal s1 s2 n = FIH_SUCCESS ↔ ∀ i, i < n → s1 i = s2 i) ∧
    ((∃ i, i < n ∧ s1 i ≠ s2 i) →
      boot_fih_memequal s1 s2 n = FIH_FAILURE ∧ FIH_FAILURE ≠ FIH_SUCCESS) := by
  constructor
  · constructor
    · intro h i hi
      by_contra hne
      have hlt := firstDiff_lt_of_exists s1 s2 n 0 i (Nat.zero_le i) (by omega) hne
      unfold boot_fih_memequal at h
      rw [if_neg (by omega)] at h
      exact absurd h (by norm_num [FIH_FAILURE, FIH_SUCCESS])
    · intro h
      have heq := firstDiff_eq_of_all s1 s2 n 0 (fun j _ hj => h j (by omega))
      unfold boot_fih_memequal
      rw [if_pos (by omega)]
  · rintro ⟨i, hi, hne⟩
    have hlt := firstDiff_lt_of_exists s1 s2 n 0 i (Nat.zero_le i) (by omega) hne
    unfold boot_fih_memequal
    rw [if_neg (by omega)]
    exact ⟨rfl, by norm_num [FIH_FAILURE, FIH_SUCCESS]⟩

/-- Witness for claim C2 at a concrete input: buffers of length 3
differing at index 1. -/
theorem boot_fih_memequal_eq_iff_witness :
    boot_fih_memequal (fun _ => 5) (fun j => if j = 1 then 7 else 5) 3 = FIH_FAILURE ∧
    FIH_FAILURE ≠ FIH_SUCCESS :=
  (boot_fih_memequal_eq_iff (fun _ => 5) (fun j => if j = 1 then 7 else 5) 3).2
    ⟨1, by decide, by decide⟩

/-- Claim C3 counterexample: two 2-byte buffers differing in exactly one
bit (byte 0 is 0 versus 1); the comparator returns the failure sentinel
after a single loop iteration, so the iteration count is 1 and not the
buffer length 2: the loop is reduced by an early exit on mismatch. -/
theorem fih_memequal_early_exit_cex :
    boot_fih_memequal (fun _ => 0) (fun j => if j = 0 then 1 else 0) 2 = FIH_FAILURE ∧
    boot_fih_memequal_iters (fun _ => 0) (fun j => if j = 0 then 1 else 0) 2 = 1 ∧
    (1 : Nat) ≠ 2 := by decide

/-- Claim C3 (amended): for buffers whose first mismatch is at index
i0 < n, boot_fih_memequal returns the failure sentinel and the
comparison loop body runs i0 + 1 times: the loop exits early at the
first mismatch, and the count reaches n only when it never hits a
mismatch before the window ends. -/
theorem fih_memequal_first_mismatch_iters (s1 s2 : Nat → Nat) (n i0 : Nat)
    (h1 : i0 < n) (h2 : s1 i0 ≠ s2 i0) (h3 : ∀ j, j < i0 → s1 j = s2 j) :
    boot_fih_memequal s1 s2 n = FIH_FAILURE ∧
    boot_fih_memequal_iters s1 s2 n = i0 + 1 := by
  have hfd := firstDiff_first_mismatch s1 s2 n 0 i0 (Nat.zero_le i0) (by omega) h2
    (fun j _ hj => h3 j hj)
  unfold boot_fih_memequal boot_fih_memequal_iters
  rw [hfd, if_neg (by omega), if_neg (by omega)]
  exact ⟨rfl, rfl⟩

/-- Witness for the amended claim C3 at a concrete input: first mismatch
at index 2 of 5, giving 3 loop iterations. -/
theorem fih_memequal_first_mismatch_iters_witness :
    boot_fih_memequal (fun _ => 0) (fun j => if j = 2 then 4 else 0) 5 = FIH_FAILURE ∧
    boot_fih_memequal_iters (fun _ => 0) (fun j => if j = 2 then 4 else 0) 5 = 3 :=
  fih_memequal_first_mismatch_iters (fun _ => 0) (fun j => if j = 2 then 4 else 0) 5 2
    (by decide) (by decide) (by decide)

/-- Configuration for the claim C6 and C7 witnesses: scratch strategy
compiled in with scratch area id 9, 4 status entries of 3 states, no
encryption. -/
def cfgW6 : Config :=
  { encImages := false, swapSaveEnctlv := false, swapUsingScratch := true,
    maxAlign := 8, magicAlignSize := 16, encKeyAlignSize := 16,
    encTlvAlignSize := 48, statusMaxEntries := 4, statusStateCount := 3,
    scratchAreaId := 9 }

/-- Bootloader state for the claim C6 and C7 witnesses: each slot has
four contiguous sectors of 0x1000 bytes; runtime write size 8. -/
def stW6 : BootLoaderState :=
  { writeSz := 8, numSectors := fun _ => 4,
    sectorOff := fun _ i => 4096 * i, sectorSize := fun _ _ => 4096 }

/-- Flash area for the claim C6 and C7 witnesses: a non-scratch slot of
size 0x4000 with four contiguous 0x1000-byte sectors. -/
def fapW6 : FlashArea :=
  { id := 1, size := 16384, align := 8,
    sectors := [(0, 4096), (4096, 4096), (8192, 4096), (12288, 4096)] }

/-- Claim C5: with write alignment 8, encryption disabled, 128 status
entries of 3 states, the trailer decomposes as status_sz = 3072 plus
trailer_info_sz = 48, totalling 3120, and the status offset of a
non-scratch area of size 0x20000 is 0x1F3D0. -/
theorem trailer_layout_s1_values :
    boot_trailer_sz cfgS1 8 = 3120 ∧
    boot_status_sz cfgS1 8 = 3072 ∧
    boot_trailer_info_sz cfgS1 = 48 ∧
    boot_status_off cfgS1 fapS1 = 0x1F3D0 := by
  decide

/-- Claim C1: with flash I/O succeeding on both probed areas, the
status locator returns 0 with the still-open handle of the scratch area
whenever scratch carries GOOD magic (in particular when both areas do,
scratch being probed first); returns 0 with the still-open handle of
the primary slot when only the primary slot carries GOOD magic; and
returns -1 with every opened handle closed again when neither does. -/
theorem boot_find_status_correct (st : FlashState) (scratchId primaryId : Nat)
    (fap0 : Option Nat)
    (hOk : ∀ a, a = scratchId ∨ a = primaryId → st.openRc a = 0 ∧ st.readRc a = 0) :
    (boot_magic_decode (st.magicBytes scratchId) = MagicVal.good →
      boot_find_status st scratchId primaryId fap0 =
        ⟨0, some scratchId, [scratchId], [scratchId]⟩) ∧
    (boot_magic_decode (st.magicBytes scratchId) ≠ MagicVal.good →
      boot_magic_decode (st.magicBytes primaryId) = MagicVal.good →
      boot_find_status st scratchId primaryId fap0 =
        ⟨0, some primaryId, [primaryId], [scratchId, primaryId]⟩) ∧
    (boot_magic_decode (st.magicBytes scratchId) ≠ MagicVal.good →
      boot_magic_decode (st.magicBytes primaryId) ≠ MagicVal.good →
      (boot_find_status st scratchId primaryId fap0).rc = -1 ∧
      (boot_find_status st scratchId primaryId fap0).openA = []) := by
  obtain ⟨ho1, hr1⟩ := hOk scratchId (Or.inl rfl)
  obtain ⟨ho2, hr2⟩ := hOk primaryId (Or.inr rfl)
  refine ⟨?_, ?_, ?_⟩
  · intro hg
    simp [boot_find_status, boot_find_status_loop, ho1, hr1, hg]
  · intro hg hp
    simp [boot_find_status, boot_find_status_loop, ho1, hr1, ho2, hr2, hg, hp]
  · intro hg hp
    simp [boot_find_status, boot_find_status_loop, ho1, hr1, ho2, hr2, hg, hp]

/-- Witness for claim C1 at a concrete input: scratch area 3 carries the
GOOD magic, so the locator returns 0 with the open handle of area 3. -/
theorem boot_find_status_correct_witness :
    boot_find_status stC1 3 1 none = ⟨0, some 3, [3], [3]⟩ :=
  (boot_find_status_correct stC1 3 1 none
    (fun a h => by rcases h with h | h <;> exact ⟨rfl, rfl⟩)).1 (by decide)

/-- Claim C10: when opening the first probed area fails, or reading its
magic fails, boot_find_status returns -1 having probed only that first
area (the remaining area is never examined, even though it might carry
GOOD magic), the driver's error code is not surfaced (the result is -1
whatever nonzero code the driver returned), no handle is left open, and
the caller's out-pointer is not set to NULL: it keeps its entry value on
an open failure and keeps the closed first handle on a read failure. -/
theorem boot_find_status_first_area_error (st : FlashState) (scratchId primaryId : Nat)
    (fap0 : Option Nat)
    (h : st.openRc scratchId ≠ 0 ∨ (st.openRc scratchId = 0 ∧ st.readRc scratchId ≠ 0)) :
    (boot_find_status st scratchId primaryId fap0).rc = -1 ∧
    (boot_find_status st scratchId primaryId fap0).probed = [scratchId] ∧
    (boot_find_status st scratchId primaryId fap0).openA = [] ∧
    (boot_find_status st scratchId primaryId fap0).fapOut =
      (if st.openRc scratchId = 0 then some scratchId else fap0) := by
  rcases h with h | ⟨h1, h2⟩
  · simp [boot_find_status, boot_find_status_loop, h]
  · simp [boot_find_status, boot_find_status_loop, h1, h2]

/-- Witness for claim C10 at a concrete input: opening scratch area 3
fails with driver code 5; the locator returns -1, probes only area 3,
and leaves the caller's pointer at its entry value. -/
theorem boot_find_status_first_area_error_witness :
    (boot_find_status stC10 3 1 (some 7)).rc = -1 ∧
    (boot_find_status stC10 3 1 (some 7)).probed = [3] ∧
    (boot_find_status stC10 3 1 (some 7)).openA = [] ∧
    (boot_find_status stC10 3 1 (some 7)).fapOut =
      (if stC10.openRc 3 = 0 then some 3 else some 7) :=
  boot_find_status_first_area_error stC10 3 1 (some 7) (Or.inl (by decide))

/-- Reading back one byte of a just-written buffer. -/
theorem flashWrite_at (m : Nat → Nat) (off : Nat) (bytes : List Nat) (i : Nat)
    (h : i < bytes.length) : flashWrite m off bytes (off + i) = bytes.getD i 0 := by
  unfold flashWrite
  rw [if_pos ⟨Nat.le_add_right off i, by omega⟩]
  have hi : off + i - off = i := by omega
  rw [hi]

/-- Claim C8: writing a 32-bit value with boot_write_swap_size and then
reading it back with boot_read_swap_size over a flash whose reads return
the last written bytes yields the value again. -/
theorem swap_size_roundtrip (cfg : Config) (fap : FlashArea) (m : Nat → Nat) (v : Nat)
    (hv : v < 4294967296) :
    boot_read_swap_size cfg fap (boot_write_swap_size cfg fap m v) = v := by
  unfold boot_read_swap_size boot_write_swap_size boot_write_trailer flashRead
  have hr : List.range 4 = [0, 1, 2, 3] := rfl
  rw [hr]
  simp only [List.map]
  have hlen : 4 ≤ (le32encode v ++ List.replicate
      (alignUp (le32encode v).length fap.align - (le32encode v).length) 0xff).length := by
    simp [le32encode]
  rw [flashWrite_at _ _ _ 0 (by omega), flashWrite_at _ _ _ 1 (by omega),
      flashWrite_at _ _ _ 2 (by omega), flashWrite_at _ _ _ 3 (by omega)]
  simp only [le32encode, List.cons_append, List.getD_cons_zero, List.getD_cons_succ,
    le32decode]
  omega

/-- Witness for claim C8 at a concrete input: the value 0x12345678
written to an 8-aligned area of size 0x20000 over erased flash reads
back unchanged. -/
theorem swap_size_roundtrip_witness :
    boot_read_swap_size cfgS1 fapS1 (boot_write_swap_size cfgS1 fapS1 (fun _ => 0xff) 0x12345678) =
      0x12345678 :=
  swap_size_roundtrip cfgS1 fapS1 (fun _ => 0xff) 0x12345678 (by norm_num)

/-- The erased-value scan runs to the end of the buffer exactly when
every byte is the erased value 0xff. -/
theorem firstNonErasedIdx_eq_length_iff (l : List Nat) :
    firstNonErasedIdx l = l.length ↔ ∀ b ∈ l, b = 0xff := by
  induction l with
  | nil => simp [firstNonErasedIdx]
  | cons b rest ih =>
    by_cases hb : b = 0xff
    · simp [firstNonErasedIdx, hb, ih]
    · simp only [firstNonErasedIdx, if_pos hb, List.length_cons]
      constructor
      · intro h
        exact absurd h.symm (Nat.succ_ne_zero rest.length)
      · intro h
        exact absurd (h b (List.mem_cons_self b rest)) hb

/-- Claim C9: in TLV storage mode, boot_read_enc_key invokes the
external key-unwrap routine exactly when the flash read of the TLV
succeeds and at least one TLV byte differs from the erased value 0xff;
when the read succeeds and every byte is erased, the slot is treated as
absent: the call returns 0 without attempting decryption. -/
theorem boot_read_enc_key_decrypt_iff (readRc : Int) (tlv : List Nat) (decryptRc : Int) :
    ((boot_read_enc_key readRc tlv decryptRc).decryptInvoked = true ↔
      readRc = 0 ∧ ∃ b ∈ tlv, b ≠ 0xff) ∧
    (readRc = 0 → (∀ b ∈ tlv, b = 0xff) →
      (boot_read_enc_key readRc tlv decryptRc).rc = 0 ∧
      (boot_read_enc_key readRc tlv decryptRc).decryptInvoked = false) := by
  by_cases hrc : readRc = 0
  · by_cases hall : firstNonErasedIdx tlv = tlv.length
    · have h2 := (firstNonErasedIdx_eq_length_iff tlv).mp hall
      constructor
      · rw [boot_read_enc_key, if_pos hrc, if_neg (not_not_intro hall)]
        constructor
        · intro h
          exact Bool.noConfusion h
        · rintro ⟨h0, b, hmem, hne⟩
          exact absurd (h2 b hmem) hne
      · intro h0 hb
        rw [boot_read_enc_key, if_pos hrc, if_neg (not_not_intro hall)]
        exact ⟨rfl, rfl⟩
    · have h2 : ∃ b ∈ tlv, b ≠ 0xff := by
        by_contra hcon
        push_neg at hcon
        exact hall ((firstNonErasedIdx_eq_length_iff tlv).mpr hcon)
      constructor
      · rw [boot_read_enc_key, if_pos hrc, if_pos hall]
        exact iff_of_true rfl ⟨hrc, h2⟩
      · intro h0 hb
        obtain ⟨b, hmem, hne⟩ := h2
        exact absurd (hb b hmem) hne
  · constructor
    · rw [boot_read_enc_key, if_neg hrc]
      constructor
      · intro h
        exact Bool.noConfusion h
      · rintro ⟨h0, _⟩
        exact absurd h0 hrc
    · intro h0
      exact absurd h0 hrc

/-- Witness for claim C9 at a concrete input: an all-erased two-byte TLV
read successfully yields return code 0 with no decryption attempted. -/
theorem boot_read_enc_key_decrypt_iff_witness :
    (boot_read_enc_key 0 [0xff, 0xff] 7).rc = 0 ∧
    (boot_read_enc_key 0 [0xff, 0xff] 7).decryptInvoked = false :=
  (boot_read_enc_key_decrypt_iff 0 [0xff, 0xff] 7).2 rfl (by decide)

/-- Branch on the larger of two end offsets equals a subtraction from
their maximum. -/
theorem if_gt_sub_eq_max_sub (a b c : Nat) :
    (if a > b then a - c else b - c) = max a b - c := by
  split_ifs <;> omega

/-- Claim C4: under the scratch strategy, bootutil_max_image_size
equals slot_trailer_off - pad, where slot_trailer_off is the slot size
minus the slot trailer size, trailer_in_first_sector is the larger of
the two first-trailer-sector end offsets minus slot_trailer_off, and
pad is the excess (truncated at zero, which Nat subtraction encodes) of
the scratch trailer size over trailer_in_first_sector. -/
theorem max_image_size_scratch_formula (cfg : Config) (st : BootLoaderState) (fap : FlashArea) :
    bootutil_max_image_size cfg Strategy.swapUsingScratch st fap =
      fap.size - boot_trailer_sz cfg st.writeSz -
        (boot_scratch_trailer_sz cfg st.writeSz -
          (max (get_first_trailer_sector_end_off st BOOT_PRIMARY_SLOT
                  (boot_trailer_sz cfg st.writeSz))
               (get_first_trailer_sector_end_off st BOOT_SECONDARY_SLOT
                  (boot_trailer_sz cfg st.writeSz)) -
            (fap.size - boot_trailer_sz cfg st.writeSz))) := by
  simp only [bootutil_max_image_size, max_image_size_scratch]
  rw [if_gt_sub_eq_max_sub]
  split_ifs with h
  · rfl
  · omega

/-- Claim C7: under the move strategy, bootutil_max_image_size returns
0 when flash_area_get_sector cannot obtain the sector descriptor for
boot_status_off, and otherwise returns the offset of the returned
sector, a sector that indeed contains boot_status_off. -/
theorem max_image_size_move_sector (cfg : Config) (st : BootLoaderState) (fap : FlashArea) :
    (flash_area_get_sector fap (boot_status_off cfg fap) = none →
      bootutil_max_image_size cfg Strategy.swapUsingMove st fap = 0) ∧
    (∀ s, flash_area_get_sector fap (boot_status_off cfg fap) = some s →
      bootutil_max_image_size cfg Strategy.swapUsingMove st fap = s.1 ∧
      s.1 ≤ boot_status_off cfg fap ∧ boot_status_off cfg fap < s.1 + s.2) := by
  constructor
  · intro h
    simp only [bootutil_max_image_size]
    rw [h]
  · intro s h
    have hp := List.find?_some (show List.find? (fun t : Nat × Nat =>
        decide (t.1 ≤ boot_status_off cfg fap ∧ boot_status_off cfg fap < t.1 + t.2))
        fap.sectors = some s from h)
    simp only [decide_eq_true_eq] at hp
    refine ⟨?_, hp.1, hp.2⟩
    simp only [bootutil_max_image_size]
    rw [h]

/-- Witness for claim C7 at a concrete input: the status offset 16240
of the witness slot lies in the last 4 KiB sector, so the move arm
returns that sector's offset 12288. -/
theorem max_image_size_move_sector_witness :
    bootutil_max_image_size cfgW6 Strategy.swapUsingMove stW6 fapW6 = 12288 ∧
    12288 ≤ boot_status_off cfgW6 fapW6 ∧ boot_status_off cfgW6 fapW6 < 12288 + 4096 := by
  have h := (max_image_size_move_sector cfgW6 stW6 fapW6).2 (12288, 4096) (by decide)
  exact h

/-- boot_trailer_sz is monotone in the write size. -/
theorem boot_trailer_sz_mono (cfg : Config) {w1 w2 : Nat} (h : w1 ≤ w2) :
    boot_trailer_sz cfg w1 ≤ boot_trailer_sz cfg w2 := by
  unfold boot_trailer_sz boot_status_sz boot_status_entry_sz
  have h1 : cfg.statusStateCount * w1 ≤ cfg.statusStateCount * w2 :=
    Nat.mul_le_mul_left _ h
  have h2 : cfg.statusMaxEntries * (cfg.statusStateCount * w1) ≤
      cfg.statusMaxEntries * (cfg.statusStateCount * w2) := Nat.mul_le_mul_left _ h1
  omega

/-- boot_scratch_trailer_sz is monotone in the write size. -/
theorem boot_scratch_trailer_sz_mono (cfg : Config) {w1 w2 : Nat} (h : w1 ≤ w2) :
    boot_scratch_trailer_sz cfg w1 ≤ boot_scratch_trailer_sz cfg w2 := by
  unfold boot_scratch_trailer_sz boot_status_entry_sz
  have h1 : cfg.statusStateCount * w1 ≤ cfg.statusStateCount * w2 :=
    Nat.mul_le_mul_left _ h
  omega

/-- The first-trailer-sector loop never returns an index above its
starting index. -/
theorem first_trailer_sector_loop_le (st : BootLoaderState) (slot tsz : Nat) :
    ∀ idx acc, first_trailer_sector_loop st slot tsz idx acc ≤ idx := by
  intro idx
  induction idx with
  | zero => intro acc; simp [first_trailer_sector_loop]
  | succ k ih =>
    intro acc
    simp only [first_trailer_sector_loop]
    split
    · exact Nat.le_succ_of_le (ih _)
    · exact Nat.le_refl _

/-- A larger trailer gives a first trailer sector at most as high. -/
theorem first_trailer_sector_loop_anti (st : BootLoaderState) (slot : Nat) {t1 t2 : Nat}
    (h : t1 ≤ t2) : ∀ idx acc,
    first_trailer_sector_loop st slot t2 idx acc ≤
      first_trailer_sector_loop st slot t1 idx acc := by
  intro idx
  induction idx with
  | zero => intro acc; simp [first_trailer_sector_loop]
  | succ k ih =>
    intro acc
    simp only [first_trailer_sector_loop]
    by_cases h1 : acc < t1
    · rw [if_pos h1, if_pos (by omega)]
      exact ih _
    · rw [if_neg h1]
      split
      · exact Nat.le_succ_of_le (first_trailer_sector_loop_le st slot t2 k _)
      · exact Nat.le_refl _

/-- boot_get_first_trailer_sector is antitone in the trailer size. -/
theorem boot_get_first_trailer_sector_anti (st : BootLoaderState) (slot : Nat) {t1 t2 : Nat}
    (h : t1 ≤ t2) :
    boot_get_first_trailer_sector st slot t2 ≤ boot_get_first_trailer_sector st slot t1 :=
  first_trailer_sector_loop_anti st slot h _ _

/-- With sector end offsets monotone in the index, the end offset of
the first trailer sector is antitone in the trailer size. -/
theorem get_first_trailer_sector_end_off_anti (st : BootLoaderState) (slot : Nat)
    {t1 t2 : Nat} (h : t1 ≤ t2)
    (hsorted : ∀ i j, i ≤ j →
      boot_img_sector_off st slot i + boot_img_sector_size st slot i ≤
        boot_img_sector_off st slot j + boot_img_sector_size st slot j) :
    get_first_trailer_sector_end_off st slot t2 ≤
      get_first_trailer_sector_end_off st slot t1 :=
  hsorted _ _ (boot_get_first_trailer_sector_anti st slot h)

/-- The first-trailer-sector loop ignores the runtime write size
component of the state. -/
theorem first_trailer_sector_loop_setWriteSz (st : BootLoaderState) (w slot tsz : Nat) :
    ∀ idx acc, first_trailer_sector_loop (setWriteSz st w) slot tsz idx acc =
      first_trailer_sector_loop st slot tsz idx acc := by
  intro idx
  induction idx with
  | zero => intro acc; rfl
  | succ k ih =>
    intro acc
    simp only [first_trailer_sector_loop]
    split
    · exact ih _
    · rfl

/-- The first-trailer-sector end offset ignores the runtime write size
component of the state. -/
theorem get_first_trailer_sector_end_off_setWriteSz (st : BootLoaderState)
    (w slot tsz : Nat) :
    get_first_trailer_sector_end_off (setWriteSz st w) slot tsz =
      get_first_trailer_sector_end_off st slot tsz := by
  unfold get_first_trailer_sector_end_off boot_get_first_trailer_sector
  rw [first_trailer_sector_loop_setWriteSz]
  rfl

/-- Value of the scratch arm as a minimum, valid whenever the trailer
offset does not exceed the larger first-trailer-sector end offset. -/
theorem max_image_size_scratch_min (cfg : Config) (st : BootLoaderState) (fap : FlashArea)
    (hE : fap.size - boot_trailer_sz cfg st.writeSz ≤
      max (get_first_trailer_sector_end_off st BOOT_PRIMARY_SLOT
            (boot_trailer_sz cfg st.writeSz))
          (get_first_trailer_sector_end_off st BOOT_SECONDARY_SLOT
            (boot_trailer_sz cfg st.writeSz))) :
    max_image_size_scratch cfg st fap =
      min (fap.size - boot_trailer_sz cfg st.writeSz)
          (max (get_first_trailer_sector_end_off st BOOT_PRIMARY_SLOT
                  (boot_trailer_sz cfg st.writeSz))
               (get_first_trailer_sector_end_off st BOOT_SECONDARY_SLOT
                  (boot_trailer_sz cfg st.writeSz)) -
            boot_scratch_trailer_sz cfg st.writeSz) := by
  simp only [max_image_size_scratch]
  rw [if_gt_sub_eq_max_sub]
  split_ifs with h <;> omega

/-- Reduction of the sector search over a cons cell. -/
theorem sectorFind_cons (t : Nat × Nat) (rest : List (Nat × Nat)) (x : Nat) :
    sectorFind (t :: rest) x =
      if t.1 ≤ x ∧ x < t.1 + t.2 then some t else sectorFind rest x := by
  unfold sectorFind
  by_cases hp : t.1 ≤ x ∧ x < t.1 + t.2
  · rw [List.find?_cons_of_pos _ (by simpa using hp), if_pos hp]
  · rw [List.find?_cons_of_neg _ (by simpa using hp), if_neg hp]

/-- In a contiguous sector table every offset below the total size is
found, and the found sector contains it. -/
theorem sectorFind_contains (l : List (Nat × Nat)) :
    ∀ base x, contiguousB base l = true → base ≤ x → x < base + sumSizes l →
      ∃ s, sectorFind l x = some s ∧ s.1 ≤ x ∧ x < s.1 + s.2 := by
  induction l with
  | nil =>
    intro base x _ h1 h2
    simp [sumSizes] at h2
    omega
  | cons t rest ih =>
    intro base x hc h1 h2
    simp only [contiguousB, Bool.and_eq_true, decide_eq_true_eq] at hc
    obtain ⟨⟨hb, hpos⟩, hrest⟩ := hc
    have hsum : sumSizes (t :: rest) = t.2 + sumSizes rest := rfl
    rw [sectorFind_cons]
    by_cases hx : x < t.1 + t.2
    · rw [if_pos (by omega)]
      exact ⟨t, rfl, by omega, hx⟩
    · rw [if_neg (by omega)]
      exact ih (t.1 + t.2) x hrest (by omega) (by omega)

/-- Every sector found in a table contiguous from base starts at or
after base. -/
theorem sectorFind_off_ge (l : List (Nat × Nat)) :
    ∀ base x s, contiguousB base l = true → sectorFind l x = some s → base ≤ s.1 := by
  induction l with
  | nil =>
    intro base x s _ hf
    simp [sectorFind] at hf
  | cons t rest ih =>
    intro base x s hc hf
    simp only [contiguousB, Bool.and_eq_true, decide_eq_true_eq] at hc
    obtain ⟨⟨hb, hpos⟩, hrest⟩ := hc
    rw [sectorFind_cons] at hf
    by_cases hp : t.1 ≤ x ∧ x < t.1 + t.2
    · rw [if_pos hp] at hf
      cases hf
      omega
    · rw [if_neg hp] at hf
      have h2 := ih (t.1 + t.2) x s hrest hf
      omega

/-- In a contiguous sector table the sector offset found for a smaller
address is at most the one found for a larger address. -/
theorem sectorFind_off_mono (l : List (Nat × Nat)) :
    ∀ base x y sx sy, contiguousB base l = true → base ≤ x → x ≤ y →
      sectorFind l x = some sx → sectorFind l y = some sy → sx.1 ≤ sy.1 := by
  induction l with
  | nil =>
    intro base x y sx sy _ _ _ hfx _
    simp [sectorFind] at hfx
  | cons t rest ih =>
    intro base x y sx sy hc hbx hxy hfx hfy
    simp only [contiguousB, Bool.and_eq_true, decide_eq_true_eq] at hc
    obtain ⟨⟨hb, hpos⟩, hrest⟩ := hc
    rw [sectorFind_cons] at hfx hfy
    by_cases hpx : t.1 ≤ x ∧ x < t.1 + t.2
    · rw [if_pos hpx] at hfx
      cases hfx
      by_cases hpy : t.1 ≤ y ∧ y < t.1 + t.2
      · rw [if_pos hpy] at hfy
        cases hfy
        exact Nat.le_refl _
      · rw [if_neg hpy] at hfy
        have h2 := sectorFind_off_ge rest (t.1 + t.2) y sy hrest hfy
        omega
    · rw [if_neg hpx] at hfx
      have hx2 : t.1 + t.2 ≤ x := by omega
      rw [if_neg (by omega)] at hfy
      exact ih (t.1 + t.2) x y sx sy hrest (by omega) hxy hfx hfy

/-- Claim C6: for a fixed slot size, fixed sector tables and fixed
feature configuration, bootutil_max_image_size computed with a larger
minimum write size never exceeds the value computed with a smaller one,
for every strategy arm.  The well-formedness hypotheses state that
sector end offsets are monotone in the sector index, that the trailer
offset lies at or below the larger first-trailer-sector end offset
(scratch strategy), and that the sector table of the area is contiguous
from offset 0 and contains the status offset (move strategy). -/
theorem bootutil_max_image_size_antitone (cfg : Config) (strat : Strategy)
    (st : BootLoaderState) (fap : FlashArea) (w1 w2 : Nat) (hw : w1 ≤ w2)
    (hsorted : ∀ slot i j, i ≤ j →
      boot_img_sector_off st slot i + boot_img_sector_size st slot i ≤
        boot_img_sector_off st slot j + boot_img_sector_size st slot j)
    (hE1 : fap.size - boot_trailer_sz cfg w1 ≤
      max (get_first_trailer_sector_end_off st BOOT_PRIMARY_SLOT (boot_trailer_sz cfg w1))
          (get_first_trailer_sector_end_off st BOOT_SECONDARY_SLOT (boot_trailer_sz cfg w1)))
    (hE2 : fap.size - boot_trailer_sz cfg w2 ≤
      max (get_first_trailer_sector_end_off st BOOT_PRIMARY_SLOT (boot_trailer_sz cfg w2))
          (get_first_trailer_sector_end_off st BOOT_SECONDARY_SLOT (boot_trailer_sz cfg w2)))
    (hcontig : contiguousB 0 fap.sectors = true)
    (hin1 : boot_status_off cfg (setAlign fap w1) < sumSizes fap.sectors)
    (hin2 : boot_status_off cfg (setAlign fap w2) < sumSizes fap.sectors) :
    bootutil_max_image_size cfg strat (setWriteSz st w2) (setAlign fap w2) ≤
      bootutil_max_image_size cfg strat (setWriteSz st w1) (setAlign fap w1) := by
  have hT := boot_trailer_sz_mono cfg hw
  have hS := boot_scratch_trailer_sz_mono cfg hw
  have hso : boot_status_off cfg (setAlign fap w2) ≤ boot_status_off cfg (setAlign fap w1) := by
    simp only [boot_status_off, setAlign]
    split_ifs
    · exact Nat.sub_le_sub_left hS _
    · exact Nat.sub_le_sub_left hT _
  cases strat with
  | singleApplicationSlot => exact hso
  | firmwareLoader => exact hso
  | overwriteOnly => exact Nat.le_refl _
  | directXip => exact Nat.le_refl _
  | ramLoad => exact Nat.le_refl _
  | swapUsingMove =>
    obtain ⟨s1, hf1, hs1a, hs1b⟩ := sectorFind_contains fap.sectors 0
      (boot_status_off cfg (setAlign fap w1)) hcontig (Nat.zero_le _) (by omega)
    obtain ⟨s2, hf2, hs2a, hs2b⟩ := sectorFind_contains fap.sectors 0
      (boot_status_off cfg (setAlign fap w2)) hcontig (Nat.zero_le _) (by omega)
    have hmono := sectorFind_off_mono fap.sectors 0
      (boot_status_off cfg (setAlign fap w2)) (boot_status_off cfg (setAlign fap w1))
      s2 s1 hcontig (Nat.zero_le _) hso hf2 hf1
    simp only [bootutil_max_image_size, flash_area_get_sector]
    have he : ∀ w, (setAlign fap w).sectors = fap.sectors := fun w => rfl
    rw [he, he, hf1, hf2]
    exact hmono
  | swapUsingScratch =>
    have hmin : ∀ w, fap.size - boot_trailer_sz cfg w ≤
        max (get_first_trailer_sector_end_off st BOOT_PRIMARY_SLOT (boot_trailer_sz cfg w))
            (get_first_trailer_sector_end_off st BOOT_SECONDARY_SLOT (boot_trailer_sz cfg w)) →
        max_image_size_scratch cfg (setWriteSz st w) (setAlign fap w) =
          min (fap.size - boot_trailer_sz cfg w)
              (max (get_first_trailer_sector_end_off st BOOT_PRIMARY_SLOT
                      (boot_trailer_sz cfg w))
                   (get_first_trailer_sector_end_off st BOOT_SECONDARY_SLOT
                      (boot_trailer_sz cfg w)) -
                boot_scratch_trailer_sz cfg w) := by
      intro w hE
      have h1 : boot_trailer_sz cfg (setWriteSz st w).writeSz = boot_trailer_sz cfg w := rfl
      have h2 : boot_scratch_trailer_sz cfg (setWriteSz st w).writeSz =
        boot_scratch_trailer_sz cfg w := rfl
      have h3 : (setAlign fap w).size = fap.size := rfl
      have h4 := get_first_trailer_sector_end_off_setWriteSz st w BOOT_PRIMARY_SLOT
        (boot_trailer_sz cfg w)
      have h5 := get_first_trailer_sector_end_off_setWriteSz st w BOOT_SECONDARY_SLOT
        (boot_trailer_sz cfg w)
      have key := max_image_size_scratch_min cfg (setWriteSz st w) (setAlign fap w)
      rw [h1, h2, h3, h4, h5] at key
      exact key hE
    show max_image_size_scratch cfg (setWriteSz st w2) (setAlign fap w2) ≤
      max_image_size_scratch cfg (setWriteSz st w1) (setAlign fap w1)
    rw [hmin w1 hE1, hmin w2 hE2]
    have hA : fap.size - boot_trailer_sz cfg w2 ≤ fap.size - boot_trailer_sz cfg w1 :=
      Nat.sub_le_sub_left hT _
    have hP := get_first_trailer_sector_end_off_anti st BOOT_PRIMARY_SLOT hT
      (hsorted BOOT_PRIMARY_SLOT)
    have hQ := get_first_trailer_sector_end_off_anti st BOOT_SECONDARY_SLOT hT
      (hsorted BOOT_SECONDARY_SLOT)
    omega

/-- Witness for claim C6 at a concrete input: write sizes 4 and 8 on
16 KiB slots made of four contiguous 4 KiB sectors, scratch strategy. -/
theorem bootutil_max_image_size_antitone_witness :
    bootutil_max_image_size cfgW6 Strategy.swapUsingScratch (setWriteSz stW6 8)
        (setAlign fapW6 8) ≤
      bootutil_max_image_size cfgW6 Strategy.swapUsingScratch (setWriteSz stW6 4)
        (setAlign fapW6 4) :=
  bootutil_max_image_size_antitone cfgW6 Strategy.swapUsingScratch stW6 fapW6 4 8
    (by norm_num)
    (fun slot i j h => by
      simp only [boot_img_sector_off, boot_img_sector_size, stW6]
      omega)
    (by decide) (by decide) (by decide) (by decide) (by decide)
